import Mathlib

/-!
Verification of the Vosk transcription pipeline: a shallow embedding of
`scripts/transcribe.py` (positional-argument entry point) and
`scripts/transcribe_audio.py` (flag-based entry point).

Modelling conventions:

* Python floats that carry exact sample-derived values (word timestamps,
  frame counts divided by the sample rate) are modelled as rationals.
* JSON dictionaries produced by the engine are modelled structurally:
  `RecResult.result` is an `Option (List WordEntry)`, `none` meaning the
  `"result"` key is absent from the JSON object, `some ws` meaning the key
  is present with word list `ws`.  The `"time"` key the flag-based driver
  adds to an entry is an `Option` on `DriverEntry` (`none` = key absent).
* The Vosk recognizer is modelled as a function from the feed index (how
  many chunks have been accepted so far) to `Option RecResult`:
  `none` means `AcceptWaveform` returned `False` for that chunk, `some r`
  means it returned `True` and `Result()` parsed to `r`.  `FinalResult()`
  is a separate field of the environment.
* `wave` file reading is a cursor over `nframes` frames; `readframes n`
  returns `min n (frames remaining)` frames and advances the cursor.
  Chunks are identified with their frame count; a zero-length byte string
  corresponds to a zero frame count (frame size is 2 bytes after the
  format gate, so the two are equivalent).
* The chunk loops are written with an explicit fuel argument so that they
  are structurally recursive and compute by kernel reduction.  Each
  iteration consumes at least one frame, so fuel `total - pos` always
  suffices; with exhausted fuel the loop returns its state, which agrees
  with the real loop exactly when no frames remain.  This adequacy is
  proved below (`Py.loopF_fuel_irrel`, `Ta.ta_loopF_fuel_irrel`).
* Any exception raised inside the scripts' `try` blocks (model load,
  `wave.open`, engine calls) is modelled by the environment field
  `loadExn : Option String` carrying `str(e)`; both scripts catch it and
  report the message.
* Side effects relevant to the claims (model load, file open, recognizer
  creation, feeding, draining) are recorded in an effect trace.
-/

namespace Transcribe

/-- A word-level timing entry from the engine, the elements of the JSON
`"result"` list: word text, start time, end time, confidence. -/
structure WordEntry where
  word : String
  start : ℚ
  endT : ℚ
  conf : ℚ
deriving DecidableEq, Repr

/-- A parsed recognition result JSON object: the `"text"` field, and the
`"result"` word list when that key is present (`none` = key absent). -/
structure RecResult where
  text : String
  result : Option (List WordEntry)
deriving DecidableEq, Repr

/-- An entry of a driver's `results` list.  `transcribe_audio.py` adds a
`"time"` key to the parsed result dict; `transcribe.py` does not, which is
modelled by `time = none`. -/
structure DriverEntry where
  r : RecResult
  time : Option ℚ
deriving DecidableEq, Repr

/-- A segment dict built by `transcribe.py` lines 85-91. -/
structure Segment where
  id : Nat
  start : ℚ
  endT : ℚ
  text : String
  words : List WordEntry
deriving DecidableEq, Repr

/-- The WAV header data the scripts query via the `wave` module. -/
structure WavFile where
  nchannels : Nat
  sampwidth : Nat
  comptype : String
  framerate : Nat
  nframes : Nat
deriving DecidableEq, Repr

/-- Python's `str.strip()` on a list of characters: drop whitespace from
the front, then from the back. -/
def pyStripList (l : List Char) : List Char :=
  ((l.dropWhile Char.isWhitespace).reverse.dropWhile Char.isWhitespace).reverse

/-- Python's `str.strip()`. -/
def pyStrip (s : String) : String :=
  ⟨pyStripList s.data⟩

/-- Python's `sep.join(xs)`. -/
def pyJoin (sep : String) : List String → String
  | [] => ""
  | [t] => t
  | t :: ts => t ++ sep ++ pyJoin sep ts

/-- The format gate shared by both scripts:
`wf.getnchannels() != 1 or wf.getsampwidth() != 2 or wf.getcomptype() != "NONE"`. -/
def wavFormatBad (w : WavFile) : Bool :=
  w.nchannels != 1 || w.sampwidth != 2 || w.comptype != "NONE"

/-- `wave.Wave_read.readframes`: given a requested frame count, the total
frame count and the cursor, return the number of frames delivered and the
new cursor.  At or past end-of-stream it delivers zero frames and leaves
the cursor unchanged. -/
def readframes (chunkSize total pos : Nat) : Nat × Nat :=
  (min chunkSize (total - pos), pos + min chunkSize (total - pos))

/-- Side effects of a run that the claims talk about. -/
inductive Effect
  | loadModel
  | openWav
  | createRecognizer
  | feedChunk
  | drainResult
  | flushFinal
deriving DecidableEq, Repr

/-- The JSON document `transcribe.py` prints: a bare error object, an
error object with download instructions, or a transcript. -/
inductive Out
  | errorOnly (msg : String)
  | errorWithInstructions (msg instructions : String)
  | transcript (segments : List Segment) (fullText : String)
deriving DecidableEq, Repr

end Transcribe

namespace Py

open Transcribe

/-- `transcribe.py` line 62: `chunk_size = wf.getframerate() * 5`. -/
def chunk_size (w : WavFile) : Nat :=
  w.framerate * 5

/-- Loop state of the chunk loop of `transcribe.py` lines 61-71: cursor,
feed index, accumulated `results`, effect trace. -/
structure LoopState where
  pos : Nat
  k : Nat
  results : List DriverEntry
  effs : List Effect
deriving Repr

/-- One iteration body of the chunk loop of `transcribe.py` lines 64-71
(after the zero-length test): advance the cursor by the chunk just read,
feed it, and when `AcceptWaveform` reports a boundary append the drained
`Result()` (without any time stamp) to `results`. -/
def step (engine : Nat → Option RecResult) (chunkSize total : Nat)
    (st : LoopState) : LoopState :=
  { pos := (readframes chunkSize total st.pos).2
    k := st.k + 1
    results := st.results ++ (match engine st.k with
      | some r => [⟨r, none⟩]
      | none => [])
    effs := st.effs ++ [Effect.feedChunk] ++ (match engine st.k with
      | some _ => [Effect.drainResult]
      | none => []) }

/-- The chunk loop of `transcribe.py` lines 64-71, with fuel: read a
chunk, stop on a zero-length chunk, otherwise run the loop body. -/
def loopF (engine : Nat → Option RecResult) (chunkSize total : Nat) :
    Nat → LoopState → LoopState
  | 0, st => st
  | fuel + 1, st =>
    if (readframes chunkSize total st.pos).1 = 0 then st
    else loopF engine chunkSize total fuel (step engine chunkSize total st)

/-- The environment of one `transcribe.py` invocation: command-line
arguments, the file system, the WAV header, and the engine's behaviour. -/
structure Env where
  audio_path : String
  model_path : Option String
  pathExists : String → Bool
  wav : WavFile
  engine : Nat → Option RecResult
  final : RecResult
  loadExn : Option String

/-- `transcribe.py` lines 30-31: `if not model_path: model_path = ...`;
note that Python treats the empty string as falsy. -/
def resolve_model_path (mp : Option String) : String :=
  match mp with
  | none => "models/vosk-model-small-en-us-0.15"
  | some s => if s = "" then "models/vosk-model-small-en-us-0.15" else s

/-- The instructions string of `transcribe.py` line 37. -/
def instructionsText : String :=
  "Download model from https://alphacephei.com/vosk/models"

/-- Effects already performed when the chunk loop starts. -/
def loopInit : LoopState :=
  ⟨0, 0, [], [Effect.loadModel, Effect.openWav, Effect.createRecognizer]⟩

/-- The chunk loop of `transcribe.py`, run from the initial state with
sufficient fuel. -/
def runLoop (env : Env) : LoopState :=
  loopF env.engine (chunk_size env.wav) env.wav.nframes env.wav.nframes loopInit

/-- The `results` list of `transcribe.py` after line 75: the mid-stream
results followed by the unconditionally appended `FinalResult()`. -/
def driverResults (env : Env) : List DriverEntry :=
  (runLoop env).results ++ [⟨env.final, none⟩]

/-- The segment dict of `transcribe.py` lines 85-91, for index `i` and a
result whose `"result"` key holds `ws`. -/
def mkSegment (i : Nat) (r : RecResult) (ws : List WordEntry) : Segment :=
  { id := i
    start := match ws with
      | [] => (i : ℚ) * 5
      | w :: _ => w.start
    endT := match ws.getLast? with
      | none => ((i : ℚ) + 1) * 5
      | some w => w.endT
    text := r.text
    words := ws }

/-- The loop of `transcribe.py` lines 83-93 over `enumerate(results)`:
entries whose `"result"` key is present contribute a segment and extend
the running full text by their text and a space. -/
def assembleGo (i : Nat) (entries : List DriverEntry)
    (segs : List Segment) (ft : String) : List Segment × String :=
  match entries with
  | [] => (segs, ft)
  | e :: rest =>
    match e.r.result with
    | some ws =>
        assembleGo (i + 1) rest (segs ++ [mkSegment i e.r ws]) (ft ++ e.r.text ++ " ")
    | none => assembleGo (i + 1) rest segs ft

/-- `transcribe.py` lines 77-95: build the transcript object and strip the
accumulated full text. -/
def assemble (entries : List DriverEntry) : List Segment × String :=
  let a := assembleGo 0 entries [] ""
  (a.1, pyStrip a.2)

/-- The observable outcome of one `transcribe.py` invocation. -/
structure Run where
  out : Out
  exitCode : Nat
  effs : List Effect
deriving Repr

/-- `transcribe.py` lines 24-102, `transcribe_audio(audio_path, model_path)`:
existence checks, model load, format gate, chunk loop, final flush,
assembly, output.  An exception inside the `try` block is caught and
reported as `{"error": str(e)}` with exit status 1. -/
def transcribe_audio (env : Env) : Run :=
  if env.pathExists env.audio_path = false then
    { out := Out.errorOnly ("Audio file not found: " ++ env.audio_path)
      exitCode := 1, effs := [] }
  else
    if env.pathExists (resolve_model_path env.model_path) = false then
      { out := Out.errorWithInstructions
          ("Model not found: " ++ resolve_model_path env.model_path) instructionsText
        exitCode := 1, effs := [] }
    else
      match env.loadExn with
      | some msg => { out := Out.errorOnly msg, exitCode := 1, effs := [] }
      | none =>
        if wavFormatBad env.wav then
          { out := Out.errorOnly "Audio file must be mono WAV format at 16 bit PCM"
            exitCode := 1, effs := [Effect.loadModel, Effect.openWav] }
        else
          let a := assemble (driverResults env)
          { out := Out.transcript a.1 a.2
            exitCode := 0
            effs := (runLoop env).effs ++ [Effect.flushFinal] }

end Py

namespace Ta

open Transcribe

/-- The result dict of `transcribe_audio.py` lines 16-21: it has exactly
the keys `success`, `error`, `results`, `full_text`. -/
structure ResultDict where
  success : Bool
  error : Option String
  results : List DriverEntry
  full_text : String
deriving DecidableEq, Repr

/-- The environment of one `transcribe_audio.py` invocation. -/
structure Env where
  audio_path : String
  model_path : String
  chunk_size : Nat
  pathExists : String → Bool
  wav : WavFile
  engine : Nat → Option RecResult
  final : RecResult
  loadExn : Option String

/-- Loop state of the chunk loop of `transcribe_audio.py` lines 50-62:
cursor, feed index, accumulated `result["results"]`, accumulated
`full_text` list, effect trace. -/
structure LoopState where
  pos : Nat
  k : Nat
  results : List DriverEntry
  texts : List String
  effs : List Effect
deriving Repr

/-- One iteration body of the chunk loop of `transcribe_audio.py` lines
52-62 (after the zero-length test): advance the cursor; on a boundary,
drain `Result()` and, when its text is non-empty after `strip()`, record
it with `"time" = wf.tell() / wf.getframerate()` and append its text to
the `full_text` list. -/
def step (engine : Nat → Option RecResult) (chunkSize total rate : Nat)
    (st : LoopState) : LoopState :=
  match engine st.k with
  | some r =>
    if pyStrip r.text = "" then
      { st with pos := (readframes chunkSize total st.pos).2, k := st.k + 1
                effs := st.effs ++ [Effect.feedChunk, Effect.drainResult] }
    else
      { pos := (readframes chunkSize total st.pos).2
        k := st.k + 1
        results := st.results ++
          [⟨r, some (((readframes chunkSize total st.pos).2 : ℚ) / (rate : ℚ))⟩]
        texts := st.texts ++ [r.text]
        effs := st.effs ++ [Effect.feedChunk, Effect.drainResult] }
  | none =>
    { st with pos := (readframes chunkSize total st.pos).2, k := st.k + 1
              effs := st.effs ++ [Effect.feedChunk] }

/-- The chunk loop of `transcribe_audio.py` lines 52-62, with fuel: read a
chunk, stop on a zero-length chunk, otherwise run the loop body. -/
def loopF (engine : Nat → Option RecResult) (chunkSize total rate : Nat) :
    Nat → LoopState → LoopState
  | 0, st => st
  | fuel + 1, st =>
    if (readframes chunkSize total st.pos).1 = 0 then st
    else loopF engine chunkSize total rate fuel (step engine chunkSize total rate st)

/-- The chunk loop of `transcribe_audio.py`, run from the initial state
with sufficient fuel.  Model load, file open and recognizer creation have
already happened when it starts. -/
def runLoop (env : Env) : LoopState :=
  loopF env.engine env.chunk_size env.wav.nframes env.wav.framerate env.wav.nframes
    ⟨0, 0, [], [], [Effect.loadModel, Effect.openWav, Effect.createRecognizer]⟩

/-- `transcribe_audio.py` lines 64-69: the final flush.  When
`FinalResult()` has non-empty stripped text it is appended with
`"time" = wf.tell() / wf.getframerate()` (the cursor is at its final
position) and its text extends the `full_text` list. -/
def afterFinal (env : Env) (st : LoopState) : List DriverEntry × List String :=
  if pyStrip env.final.text = "" then (st.results, st.texts)
  else
    (st.results ++ [⟨env.final, some ((st.pos : ℚ) / (env.wav.framerate : ℚ))⟩],
     st.texts ++ [env.final.text])

/-- The full `results` list of a `transcribe_audio.py` run (mid-stream
entries plus the final flush). -/
def driverResults (env : Env) : List DriverEntry :=
  (afterFinal env (runLoop env)).1

/-- The full `full_text` list of a `transcribe_audio.py` run. -/
def driverTexts (env : Env) : List String :=
  (afterFinal env (runLoop env)).2

/-- `transcribe_audio.py` lines 12-77, `transcribe_audio(audio_path,
model_path, chunk_size)`: never raises; fills the four-key result dict.
Note the model existence check precedes the audio existence check, and no
strip is applied to the joined `full_text`. -/
def transcribe_audio (env : Env) : ResultDict × List Effect :=
  let init : ResultDict := { success := false, error := none, results := [], full_text := "" }
  if env.pathExists env.model_path = false then
    ({ init with error := some ("Model not found: " ++ env.model_path) }, [])
  else
    if env.pathExists env.audio_path = false then
      ({ init with error := some ("Audio file not found: " ++ env.audio_path) }, [])
    else
      match env.loadExn with
      | some msg => ({ init with error := some msg }, [])
      | none =>
        if wavFormatBad env.wav then
          ({ init with error := some "Audio file must be WAV format mono PCM" },
           [Effect.loadModel, Effect.openWav])
        else
          ({ success := true
             error := none
             results := driverResults env
             full_text := pyJoin " " (driverTexts env) },
           (runLoop env).effs ++ [Effect.flushFinal])

/-- `transcribe_audio.py` lines 79-88 (`__main__` after argument parsing):
print `json.dumps(result)` and fall off the end of the script — the exit
status is 0 regardless of `result["success"]`. -/
def main (env : Env) : ResultDict × Nat :=
  ((transcribe_audio env).1, 0)

end Ta

namespace Transcribe

/-! ### Properties of the Python string helpers -/

theorem pyStripList_eq_rdropWhile (l : List Char) :
    pyStripList l = List.rdropWhile Char.isWhitespace (l.dropWhile Char.isWhitespace) := rfl

theorem dropWhile_append_left {α : Type} (p : α → Bool) (l m : List α)
    (h : l.dropWhile p ≠ []) : (l ++ m).dropWhile p = l.dropWhile p ++ m := by
  induction l with
  | nil => simp at h
  | cons c rest ih =>
    by_cases hc : p c
    · simp only [List.cons_append, List.dropWhile_cons, hc, if_true] at h ⊢
      exact ih h
    · simp [List.dropWhile_cons, hc]

theorem pyStripList_append_space (l : List Char) :
    pyStripList (l ++ [' ']) = pyStripList l := by
  rw [pyStripList_eq_rdropWhile, pyStripList_eq_rdropWhile]
  by_cases h : l.dropWhile Char.isWhitespace = []
  · have hall : ∀ c ∈ l, Char.isWhitespace c = true := List.dropWhile_eq_nil_iff.mp h
    have h2 : (l ++ [' ']).dropWhile Char.isWhitespace = [] := by
      rw [List.dropWhile_eq_nil_iff]
      intro c hc
      rcases List.mem_append.mp hc with hc | hc
      · exact hall c hc
      · simp only [List.mem_singleton] at hc
        subst hc; decide
    rw [h, h2]
  · rw [dropWhile_append_left _ _ _ h,
      List.rdropWhile_concat_pos _ _ _ (by decide : Char.isWhitespace ' ' = true)]

/-- A list of characters neither starts nor ends with whitespace. -/
def noWsEdges (l : List Char) : Prop :=
  (∀ c, l.head? = some c → c.isWhitespace = false) ∧
  (∀ c, l.getLast? = some c → c.isWhitespace = false)

theorem pyStripList_eq_self_of (l : List Char) (h : noWsEdges l) :
    pyStripList l = l := by
  have hd : l.dropWhile Char.isWhitespace = l := by
    cases l with
    | nil => rfl
    | cons c rest =>
      have := h.1 c rfl
      simp [List.dropWhile_cons, this]
  rw [pyStripList_eq_rdropWhile, hd, List.rdropWhile_eq_self_iff]
  intro hl
  have := h.2 (l.getLast hl) (List.getLast?_eq_getLast l hl)
  simp [this]

theorem noWsEdges_of_pyStripList_eq_self (l : List Char) (h : pyStripList l = l) :
    noWsEdges l := by
  have hlen1 : (pyStripList l).length ≤ (l.dropWhile Char.isWhitespace).length :=
    (List.rdropWhile_prefix _ _).length_le
  have hsuff : l.dropWhile Char.isWhitespace <:+ l := List.dropWhile_suffix _
  have hlen2 : (l.dropWhile Char.isWhitespace).length ≤ l.length := hsuff.length_le
  have hdrop : l.dropWhile Char.isWhitespace = l := by
    apply hsuff.eq_of_length
    have := congrArg List.length h
    omega
  have hr : List.rdropWhile Char.isWhitespace l = l := by
    rw [pyStripList_eq_rdropWhile, hdrop] at h
    exact h
  constructor
  · intro c hc
    cases l with
    | nil => simp at hc
    | cons a rest =>
      simp only [List.head?_cons, Option.some.injEq] at hc
      subst hc
      by_contra hw
      simp only [Bool.not_eq_false] at hw
      rw [List.dropWhile_cons, if_pos hw] at hdrop
      have hle := (List.dropWhile_suffix (l := rest) Char.isWhitespace).length_le
      rw [hdrop] at hle
      simp at hle
  · intro c hc
    have hl : l ≠ [] := by
      intro hnil; subst hnil; simp at hc
    have := List.rdropWhile_eq_self_iff.mp hr hl
    rw [List.getLast?_eq_getLast l hl] at hc
    simp only [Option.some.injEq] at hc
    subst hc
    simp [this]

theorem string_data_append (s t : String) : (s ++ t).data = s.data ++ t.data := rfl

theorem pyStrip_data (s : String) : (pyStrip s).data = pyStripList s.data := rfl

theorem pyStrip_append_space (s : String) : pyStrip (s ++ " ") = pyStrip s :=
  String.ext (pyStripList_append_space s.data)

theorem string_ne_empty_iff (s : String) : s ≠ "" ↔ s.data ≠ [] := by
  constructor
  · intro h hd
    exact h (String.ext hd)
  · intro h hd
    subst hd
    exact h rfl

theorem pyJoin_data_ne_nil (ts : List String) (hne : ts ≠ [])
    (h : ∀ t ∈ ts, t ≠ "") : (pyJoin " " ts).data ≠ [] := by
  cases ts with
  | nil => exact absurd rfl hne
  | cons t rest =>
    cases rest with
    | nil =>
      have := (string_ne_empty_iff t).mp (h t (by simp))
      simpa [pyJoin] using this
    | cons u rest' =>
      have ht : t.data ≠ [] := (string_ne_empty_iff t).mp (h t (by simp))
      show (t ++ " " ++ pyJoin " " (u :: rest')).data ≠ []
      rw [string_data_append, string_data_append]
      simp [ht]

theorem noWsEdges_pyJoin (ts : List String)
    (h : ∀ t ∈ ts, pyStrip t = t ∧ t ≠ "") : noWsEdges (pyJoin " " ts).data := by
  induction ts with
  | nil =>
    constructor <;> intro c hc <;> simp [pyJoin] at hc
  | cons t rest ih =>
    have hts : pyStrip t = t := (h t (by simp)).1
    have htne : t.data ≠ [] := (string_ne_empty_iff t).mp (h t (by simp)).2
    have hedge : noWsEdges t.data := by
      apply noWsEdges_of_pyStripList_eq_self
      have := congrArg String.data hts
      rwa [pyStrip_data] at this
    cases rest with
    | nil => exact hedge
    | cons u rest' =>
      have ih' := ih (fun x hx => h x (by simp [hx]))
      have hjoinne : (pyJoin " " (u :: rest')).data ≠ [] :=
        pyJoin_data_ne_nil _ (by simp) (fun x hx => (h x (by simp [hx])).2)
      show noWsEdges (t ++ " " ++ pyJoin " " (u :: rest')).data
      rw [string_data_append, string_data_append]
      constructor
      · intro c hc
        rw [List.append_assoc, List.head?_append_of_ne_nil _ htne] at hc
        exact hedge.1 c hc
      · intro c hc
        rw [List.append_assoc,
          List.getLast?_append_of_ne_nil _ (by simp : (" ".data ++ (pyJoin " " (u :: rest')).data) ≠ []),
          List.getLast?_append_of_ne_nil _ hjoinne] at hc
        exact ih'.2 c hc

theorem pyStrip_pyJoin_of_stripped (ts : List String)
    (h : ∀ t ∈ ts, pyStrip t = t ∧ t ≠ "") :
    pyStrip (pyJoin " " ts) = pyJoin " " ts :=
  String.ext (by rw [pyStrip_data]; exact pyStripList_eq_self_of _ (noWsEdges_pyJoin ts h))

/-- The space-terminated concatenation built by the `transcribe.py`
full-text accumulator. -/
def concatSp : List String → String
  | [] => ""
  | t :: ts => t ++ " " ++ concatSp ts

theorem string_append_assoc (a b c : String) : a ++ b ++ c = a ++ (b ++ c) :=
  String.ext (by rw [string_data_append, string_data_append, string_data_append,
    string_data_append, List.append_assoc])

theorem concatSp_eq_join (ts : List String) (h : ts ≠ []) :
    concatSp ts = pyJoin " " ts ++ " " := by
  induction ts with
  | nil => exact absurd rfl h
  | cons t rest ih =>
    cases rest with
    | nil => simp [concatSp, pyJoin]
    | cons u rest' =>
      show t ++ " " ++ concatSp (u :: rest') = t ++ " " ++ pyJoin " " (u :: rest') ++ " "
      rw [ih (by simp), string_append_assoc (t ++ " ")]

theorem pyStrip_concatSp (ts : List String) :
    pyStrip (concatSp ts) = pyStrip (pyJoin " " ts) := by
  cases ts with
  | nil => rfl
  | cons t rest =>
    rw [concatSp_eq_join _ (by simp), pyStrip_append_space]

end Transcribe

namespace Transcribe

/-! ### Word timing order -/

/-- The spec invariant on an engine word list: each word's start precedes
its end, and the words are time-ordered and non-overlapping. -/
def wordsOrdered (ws : List WordEntry) : Prop :=
  (∀ w ∈ ws, w.start ≤ w.endT) ∧ ws.Chain' (fun a b => a.endT ≤ b.start)

theorem wordsOrdered_head_le_last :
    ∀ ws : List WordEntry, wordsOrdered ws → ∀ w v,
      ws.head? = some w → ws.getLast? = some v → w.start ≤ v.endT := by
  intro ws
  induction ws with
  | nil => intro _ w v h; simp at h
  | cons a t ih =>
    intro h w v hw hv
    have hwa : a = w := by
      simpa using hw
    subst hwa
    cases t with
    | nil =>
      have hva : a = v := by
        simpa [List.getLast?] using hv
      subst hva
      exact h.1 a (by simp)
    | cons b t' =>
      rw [List.getLast?_cons_cons] at hv
      have hab : a.endT ≤ b.start := (List.chain'_cons.mp h.2).1
      have hord' : wordsOrdered (b :: t') :=
        ⟨fun x hx => h.1 x (by simp [hx]), (List.chain'_cons.mp h.2).2⟩
      have hb := ih hord' b v rfl hv
      have hw' : a.start ≤ a.endT := h.1 a (by simp)
      linarith

end Transcribe

namespace Py

open Transcribe

/-! ### Characterizing the transcript assembler -/

/-- The segments the assembler loop produces from the entries, numbering
from `i`. -/
def segsOf (i : Nat) : List DriverEntry → List Segment
  | [] => []
  | e :: rest =>
    match e.r.result with
    | some ws => mkSegment i e.r ws :: segsOf (i + 1) rest
    | none => segsOf (i + 1) rest

/-- The texts of the entries that contribute segments, in order. -/
def textsOf : List DriverEntry → List String
  | [] => []
  | e :: rest =>
    match e.r.result with
    | some _ => e.r.text :: textsOf rest
    | none => textsOf rest

theorem string_append_empty (s : String) : s ++ "" = s :=
  String.ext (by rw [string_data_append]; exact List.append_nil _)

theorem assembleGo_eq (entries : List DriverEntry) :
    ∀ i segs ft, assembleGo i entries segs ft =
      (segs ++ segsOf i entries, ft ++ concatSp (textsOf entries)) := by
  induction entries with
  | nil =>
    intro i segs ft
    simp [assembleGo, segsOf, textsOf, concatSp, string_append_empty]
  | cons e rest ih =>
    intro i segs ft
    cases h : e.r.result with
    | some ws =>
      simp only [assembleGo, segsOf, textsOf, h]
      rw [ih]
      refine Prod.ext ?_ ?_
      · simp
      · simp only [concatSp]
        rw [← string_append_assoc, ← string_append_assoc]
    | none =>
      simp only [assembleGo, segsOf, textsOf, h]
      exact ih (i + 1) segs ft

theorem assemble_fst (entries : List DriverEntry) :
    (assemble entries).1 = segsOf 0 entries := by
  show (assembleGo 0 entries [] "").1 = _
  rw [assembleGo_eq]
  simp

theorem string_empty_append (s : String) : "" ++ s = s :=
  String.ext (by rw [string_data_append]; exact List.nil_append _)

theorem assemble_snd (entries : List DriverEntry) :
    (assemble entries).2 = pyStrip (pyJoin " " (textsOf entries)) := by
  show pyStrip (assembleGo 0 entries [] "").2 = _
  rw [assembleGo_eq]
  simp only [string_empty_append]
  exact pyStrip_concatSp _

theorem textsOf_eq_map (entries : List DriverEntry) :
    ∀ i, textsOf entries = (segsOf i entries).map (fun s => s.text) := by
  induction entries with
  | nil => intro i; rfl
  | cons e rest ih =>
    intro i
    cases h : e.r.result with
    | some ws => simp only [textsOf, segsOf, h, List.map_cons, ih (i + 1)]; rfl
    | none => simp only [textsOf, segsOf, h]; exact ih (i + 1)

theorem mem_segsOf (entries : List DriverEntry) :
    ∀ i seg, seg ∈ segsOf i entries →
      ∃ m e ws, e ∈ entries ∧ e.r.result = some ws ∧ seg = mkSegment m e.r ws ∧ i ≤ m := by
  induction entries with
  | nil => intro i seg h; simp [segsOf] at h
  | cons e rest ih =>
    intro i seg h
    cases he : e.r.result with
    | some ws =>
      simp only [segsOf, he, List.mem_cons] at h
      rcases h with h | h
      · exact ⟨i, e, ws, by simp, he, h, le_refl i⟩
      · rcases ih (i + 1) seg h with ⟨m, e', ws', hmem, hr, hseg, hle⟩
        exact ⟨m, e', ws', by simp [hmem], hr, hseg, by omega⟩
    | none =>
      simp only [segsOf, he] at h
      rcases ih (i + 1) seg h with ⟨m, e', ws', hmem, hr, hseg, hle⟩
      exact ⟨m, e', ws', by simp [hmem], hr, hseg, by omega⟩

theorem segsOf_id_ge (entries : List DriverEntry) :
    ∀ i seg, seg ∈ segsOf i entries → i ≤ seg.id := by
  intro i seg h
  rcases mem_segsOf entries i seg h with ⟨m, e, ws, _, _, hseg, hle⟩
  subst hseg
  exact hle

theorem segsOf_pairwise_id (entries : List DriverEntry) :
    ∀ i, List.Pairwise (fun a b => a.id < b.id) (segsOf i entries) := by
  induction entries with
  | nil => intro i; simp [segsOf]
  | cons e rest ih =>
    intro i
    cases he : e.r.result with
    | some ws =>
      simp only [segsOf, he]
      refine List.Pairwise.cons ?_ (ih (i + 1))
      intro b hb
      have := segsOf_id_ge rest (i + 1) b hb
      show (mkSegment i e.r ws).id < b.id
      simp only [mkSegment]
      omega
    | none =>
      simp only [segsOf, he]
      exact ih (i + 1)

theorem mkSegment_start_le_endT (i : Nat) (r : RecResult) (ws : List WordEntry)
    (h : wordsOrdered ws) : (mkSegment i r ws).start ≤ (mkSegment i r ws).endT := by
  cases ws with
  | nil =>
    show (i : ℚ) * 5 ≤ ((i : ℚ) + 1) * 5
    nlinarith [Nat.cast_nonneg (α := ℚ) i]
  | cons w t =>
    have hlast : (w :: t).getLast? = some ((w :: t).getLast (by simp)) :=
      List.getLast?_eq_getLast _ _
    show (mkSegment i r (w :: t)).start ≤ (mkSegment i r (w :: t)).endT
    simp only [mkSegment, hlast]
    exact wordsOrdered_head_le_last (w :: t) h w _ rfl hlast

end Py

namespace Py

open Transcribe

/-! ### Properties of the transcribe.py chunk loop -/

theorem loopF_succ (engine : Nat → Option RecResult) (c t fuel : Nat) (st : LoopState) :
    loopF engine c t (fuel + 1) st =
      if (readframes c t st.pos).1 = 0 then st
      else loopF engine c t fuel (step engine c t st) := rfl

theorem loopF_exit (engine : Nat → Option RecResult) (c t fuel : Nat) (st : LoopState)
    (h : (readframes c t st.pos).1 = 0) : loopF engine c t fuel st = st := by
  cases fuel with
  | zero => rfl
  | succ fuel => rw [loopF_succ, if_pos h]

theorem step_pos (engine : Nat → Option RecResult) (c t : Nat) (st : LoopState) :
    (step engine c t st).pos = st.pos + min c (t - st.pos) := rfl

theorem loopF_succ_of_le (engine : Nat → Option RecResult) (c t : Nat) :
    ∀ fuel st, t - st.pos ≤ fuel →
      loopF engine c t (fuel + 1) st = loopF engine c t fuel st := by
  intro fuel
  induction fuel with
  | zero =>
    intro st h
    have h0 : (readframes c t st.pos).1 = 0 := by
      show min c (t - st.pos) = 0
      omega
    rw [loopF_exit _ _ _ _ _ h0, loopF_exit _ _ _ _ _ h0]
  | succ fuel ih =>
    intro st h
    by_cases h0 : (readframes c t st.pos).1 = 0
    · rw [loopF_exit _ _ _ _ _ h0, loopF_exit _ _ _ _ _ h0]
    · rw [loopF_succ, if_neg h0]
      conv_rhs => rw [loopF_succ, if_neg h0]
      apply ih
      have hmin : min c (t - st.pos) ≠ 0 := h0
      rw [step_pos]
      omega

theorem loopF_fuel_irrel (engine : Nat → Option RecResult) (c t : Nat) :
    ∀ fuel st, t - st.pos ≤ fuel →
      loopF engine c t fuel st = loopF engine c t (t - st.pos) st := by
  intro fuel
  induction fuel with
  | zero =>
    intro st h
    have : t - st.pos = 0 := by omega
    rw [this]
  | succ fuel ih =>
    intro st h
    by_cases he : t - st.pos = fuel + 1
    · rw [he]
    · have hle : t - st.pos ≤ fuel := by omega
      rw [loopF_succ_of_le _ _ _ _ _ hle]
      exact ih st hle

theorem loopF_mem_results (engine : Nat → Option RecResult) (c t : Nat) :
    ∀ fuel st e, e ∈ (loopF engine c t fuel st).results →
      e ∈ st.results ∨ ∃ k r, engine k = some r ∧ e = ⟨r, none⟩ := by
  intro fuel
  induction fuel with
  | zero => exact fun st e h => Or.inl h
  | succ fuel ih =>
    intro st e h
    rw [loopF_succ] at h
    by_cases h0 : (readframes c t st.pos).1 = 0
    · rw [if_pos h0] at h
      exact Or.inl h
    · rw [if_neg h0] at h
      rcases ih _ e h with h' | h'
      · simp only [step] at h'
        rcases List.mem_append.mp h' with h'' | h''
        · exact Or.inl h''
        · cases hk : engine st.k with
          | some r =>
            rw [hk] at h''
            simp only [List.mem_singleton] at h''
            exact Or.inr ⟨st.k, r, hk, h''⟩
          | none =>
            rw [hk] at h''
            simp at h''
      · exact Or.inr h'

theorem mem_driverResults (env : Env) :
    ∀ e ∈ driverResults env, e.time = none ∧
      ((∃ k, env.engine k = some e.r) ∨ e.r = env.final) := by
  intro e he
  simp only [driverResults, runLoop] at he
  rcases List.mem_append.mp he with h | h
  · rcases loopF_mem_results env.engine (chunk_size env.wav) env.wav.nframes
        env.wav.nframes loopInit e h with h' | h'
    · simp [loopInit] at h'
    · rcases h' with ⟨k, r, hk, he'⟩
      subst he'
      exact ⟨rfl, Or.inl ⟨k, hk⟩⟩
  · simp only [List.mem_singleton] at h
    subst h
    exact ⟨rfl, Or.inr rfl⟩

end Py

namespace Ta

open Transcribe

/-! ### Properties of the transcribe_audio.py chunk loop -/

theorem ta_loopF_succ (engine : Nat → Option RecResult) (c t r fuel : Nat) (st : LoopState) :
    loopF engine c t r (fuel + 1) st =
      if (readframes c t st.pos).1 = 0 then st
      else loopF engine c t r fuel (step engine c t r st) := rfl

theorem ta_loopF_exit (engine : Nat → Option RecResult) (c t r fuel : Nat) (st : LoopState)
    (h : (readframes c t st.pos).1 = 0) : loopF engine c t r fuel st = st := by
  cases fuel with
  | zero => rfl
  | succ fuel => rw [ta_loopF_succ, if_pos h]

theorem ta_step_pos (engine : Nat → Option RecResult) (c t r : Nat) (st : LoopState) :
    (step engine c t r st).pos = st.pos + min c (t - st.pos) := by
  cases hk : engine st.k with
  | some rr =>
    simp only [step, hk]
    split_ifs <;> rfl
  | none =>
    simp only [step, hk]
    rfl

theorem step_k (engine : Nat → Option RecResult) (c t r : Nat) (st : LoopState) :
    (step engine c t r st).k = st.k + 1 := by
  cases hk : engine st.k with
  | some rr =>
    simp only [step, hk]
    split_ifs <;> rfl
  | none => simp only [step, hk]

theorem ta_loopF_succ_of_le (engine : Nat → Option RecResult) (c t r : Nat) :
    ∀ fuel st, t - st.pos ≤ fuel →
      loopF engine c t r (fuel + 1) st = loopF engine c t r fuel st := by
  intro fuel
  induction fuel with
  | zero =>
    intro st h
    have h0 : (readframes c t st.pos).1 = 0 := by
      show min c (t - st.pos) = 0
      omega
    rw [ta_loopF_exit _ _ _ _ _ _ h0, ta_loopF_exit _ _ _ _ _ _ h0]
  | succ fuel ih =>
    intro st h
    by_cases h0 : (readframes c t st.pos).1 = 0
    · rw [ta_loopF_exit _ _ _ _ _ _ h0, ta_loopF_exit _ _ _ _ _ _ h0]
    · rw [ta_loopF_succ, if_neg h0]
      conv_rhs => rw [ta_loopF_succ, if_neg h0]
      apply ih
      have hmin : min c (t - st.pos) ≠ 0 := h0
      rw [ta_step_pos]
      omega

theorem ta_loopF_fuel_irrel (engine : Nat → Option RecResult) (c t r : Nat) :
    ∀ fuel st, t - st.pos ≤ fuel →
      loopF engine c t r fuel st = loopF engine c t r (t - st.pos) st := by
  intro fuel
  induction fuel with
  | zero =>
    intro st h
    have : t - st.pos = 0 := by omega
    rw [this]
  | succ fuel ih =>
    intro st h
    by_cases he : t - st.pos = fuel + 1
    · rw [he]
    · have hle : t - st.pos ≤ fuel := by omega
      rw [ta_loopF_succ_of_le _ _ _ _ _ _ hle]
      exact ih st hle

theorem cursor_step_eq (c t pos k : Nat) (h : pos = min (k * c) t)
    (_h0 : min c (t - pos) ≠ 0) :
    pos + min c (t - pos) = min ((k + 1) * c) t := by
  have hsm : (k + 1) * c = k * c + c := by ring
  rw [hsm]
  generalize k * c = a at h ⊢
  omega

theorem loopF_pos_inv (engine : Nat → Option RecResult) (c t r : Nat) :
    ∀ fuel st, st.pos = min (st.k * c) t →
      (loopF engine c t r fuel st).pos = min ((loopF engine c t r fuel st).k * c) t := by
  intro fuel
  induction fuel with
  | zero => exact fun st h => h
  | succ fuel ih =>
    intro st h
    by_cases h0 : (readframes c t st.pos).1 = 0
    · rw [ta_loopF_exit _ _ _ _ _ _ h0]
      exact h
    · rw [ta_loopF_succ, if_neg h0]
      apply ih
      rw [ta_step_pos, step_k]
      exact cursor_step_eq c t st.pos st.k h h0

theorem ta_loopF_mem_results (engine : Nat → Option RecResult) (c t r : Nat) :
    ∀ fuel st, st.pos = min (st.k * c) t → ∀ e ∈ (loopF engine c t r fuel st).results,
      e ∈ st.results ∨ ∃ k' rr, engine k' = some rr ∧ pyStrip rr.text ≠ "" ∧
        e = ⟨rr, some (((min ((k' + 1) * c) t : Nat) : ℚ) / (r : ℚ))⟩ := by
  intro fuel
  induction fuel with
  | zero => exact fun st _ e h => Or.inl h
  | succ fuel ih =>
    intro st hinv e h
    by_cases h0 : (readframes c t st.pos).1 = 0
    · rw [ta_loopF_exit _ _ _ _ _ _ h0] at h
      exact Or.inl h
    · rw [ta_loopF_succ, if_neg h0] at h
      have hinv' : (step engine c t r st).pos = min ((step engine c t r st).k * c) t := by
        rw [ta_step_pos, step_k]
        exact cursor_step_eq c t st.pos st.k hinv h0
      rcases ih (step engine c t r st) hinv' e h with h' | h'
      · cases hk : engine st.k with
        | some rr =>
          by_cases hs : pyStrip rr.text = ""
          · simp only [step, hk, if_pos hs] at h'
            exact Or.inl h'
          · simp only [step, hk, if_neg hs] at h'
            rcases List.mem_append.mp h' with h'' | h''
            · exact Or.inl h''
            · simp only [List.mem_singleton] at h''
              refine Or.inr ⟨st.k, rr, hk, hs, ?_⟩
              rw [h'']
              have : (readframes c t st.pos).2 = min ((st.k + 1) * c) t := by
                show st.pos + min c (t - st.pos) = _
                exact cursor_step_eq c t st.pos st.k hinv h0
              rw [this]
        | none =>
          simp only [step, hk] at h'
          exact Or.inl h'
      · exact Or.inr h'

theorem loopF_texts (engine : Nat → Option RecResult) (c t r : Nat) :
    ∀ fuel st, st.texts = st.results.map (fun e => e.r.text) →
      (loopF engine c t r fuel st).texts =
        (loopF engine c t r fuel st).results.map (fun e => e.r.text) := by
  intro fuel
  induction fuel with
  | zero => exact fun st h => h
  | succ fuel ih =>
    intro st h
    by_cases h0 : (readframes c t st.pos).1 = 0
    · rw [ta_loopF_exit _ _ _ _ _ _ h0]
      exact h
    · rw [ta_loopF_succ, if_neg h0]
      apply ih
      cases hk : engine st.k with
      | some rr =>
        by_cases hs : pyStrip rr.text = ""
        · simp only [step, hk, if_pos hs]
          exact h
        · simp only [step, hk, if_neg hs]
          simp [List.map_append, h]
      | none =>
        simp only [step, hk]
        exact h

theorem runLoop_pos (env : Env) :
    (runLoop env).pos = min ((runLoop env).k * env.chunk_size) env.wav.nframes := by
  simp only [runLoop]
  apply loopF_pos_inv
  simp

theorem mem_runLoop_results (env : Env) :
    ∀ e ∈ (runLoop env).results,
      ∃ k' rr, env.engine k' = some rr ∧ pyStrip rr.text ≠ "" ∧
        e = ⟨rr, some (((min ((k' + 1) * env.chunk_size) env.wav.nframes : Nat) : ℚ) /
          (env.wav.framerate : ℚ))⟩ := by
  intro e he
  have := ta_loopF_mem_results env.engine env.chunk_size env.wav.nframes env.wav.framerate
    env.wav.nframes ⟨0, 0, [], [], [Effect.loadModel, Effect.openWav, Effect.createRecognizer]⟩
    (by simp) e he
  rcases this with h | h
  · simp at h
  · exact h

theorem runLoop_texts (env : Env) :
    (runLoop env).texts = (runLoop env).results.map (fun e => e.r.text) := by
  simp only [runLoop]
  apply loopF_texts
  simp

theorem ta_mem_driverResults (env : Env) :
    ∀ e ∈ driverResults env, pyStrip e.r.text ≠ "" ∧
      ((∃ k, env.engine k = some e.r) ∨ e.r = env.final) := by
  intro e he
  simp only [driverResults, afterFinal] at he
  split_ifs at he with hf
  · rcases mem_runLoop_results env e he with ⟨k', rr, hk, hs, he'⟩
    subst he'
    exact ⟨hs, Or.inl ⟨k', hk⟩⟩
  · rcases List.mem_append.mp he with h | h
    · rcases mem_runLoop_results env e h with ⟨k', rr, hk, hs, he'⟩
      subst he'
      exact ⟨hs, Or.inl ⟨k', hk⟩⟩
    · simp only [List.mem_singleton] at h
      subst h
      exact ⟨hf, Or.inr rfl⟩

theorem driverTexts_eq_map (env : Env) :
    driverTexts env = (driverResults env).map (fun e => e.r.text) := by
  simp only [driverTexts, driverResults, afterFinal]
  split_ifs with hf
  · exact runLoop_texts env
  · simp [List.map_append, runLoop_texts env]

end Ta

open Transcribe

/-! ### Case analysis of the two entry points -/

theorem py_cases (env : Py.Env) :
    ((Py.transcribe_audio env).exitCode = 0 ∧
      (Py.transcribe_audio env).out =
        Out.transcript (Py.assemble (Py.driverResults env)).1
          (Py.assemble (Py.driverResults env)).2) ∨
    ((Py.transcribe_audio env).exitCode = 1 ∧
      ∀ segs ft, (Py.transcribe_audio env).out ≠ Out.transcript segs ft) := by
  unfold Py.transcribe_audio
  by_cases h1 : env.pathExists env.audio_path = false
  · rw [if_pos h1]
    exact Or.inr ⟨rfl, fun segs ft h => by cases h⟩
  · rw [if_neg h1]
    by_cases h2 : env.pathExists (Py.resolve_model_path env.model_path) = false
    · rw [if_pos h2]
      exact Or.inr ⟨rfl, fun segs ft h => by cases h⟩
    · rw [if_neg h2]
      cases hl : env.loadExn with
      | some msg => exact Or.inr ⟨rfl, fun segs ft h => by cases h⟩
      | none =>
        by_cases h3 : wavFormatBad env.wav = true
        · rw [if_pos h3]
          exact Or.inr ⟨rfl, fun segs ft h => by cases h⟩
        · rw [if_neg h3]
          exact Or.inl ⟨rfl, rfl⟩

theorem ta_cases (env : Ta.Env) :
    ((Ta.transcribe_audio env).1.success = false ∧
      (∃ msg, (Ta.transcribe_audio env).1.error = some msg) ∧
      (Ta.transcribe_audio env).1.results = [] ∧
      (Ta.transcribe_audio env).1.full_text = "") ∨
    ((Ta.transcribe_audio env).1.success = true ∧
      (Ta.transcribe_audio env).1.error = none ∧
      (Ta.transcribe_audio env).1.results = Ta.driverResults env ∧
      (Ta.transcribe_audio env).1.full_text = pyJoin " " (Ta.driverTexts env)) := by
  unfold Ta.transcribe_audio
  by_cases h1 : env.pathExists env.model_path = false
  · rw [if_pos h1]
    exact Or.inl ⟨rfl, ⟨_, rfl⟩, rfl, rfl⟩
  · rw [if_neg h1]
    by_cases h2 : env.pathExists env.audio_path = false
    · rw [if_pos h2]
      exact Or.inl ⟨rfl, ⟨_, rfl⟩, rfl, rfl⟩
    · rw [if_neg h2]
      cases hl : env.loadExn with
      | some msg => exact Or.inl ⟨rfl, ⟨_, rfl⟩, rfl, rfl⟩
      | none =>
        by_cases h3 : wavFormatBad env.wav = true
        · rw [if_pos h3]
          exact Or.inl ⟨rfl, ⟨_, rfl⟩, rfl, rfl⟩
        · rw [if_neg h3]
          exact Or.inr ⟨rfl, rfl, rfl, rfl⟩

/-! ### Concrete environments for counterexamples and witnesses -/

/-- A `transcribe.py` environment where the first utterance boundary
drains an empty result (typical for leading silence) and the second a
proper one. -/
def cxEnvC1 : Py.Env :=
  { audio_path := "audio.wav"
    model_path := some "model"
    pathExists := fun _ => true
    wav := ⟨1, 2, "NONE", 1, 10⟩
    engine := fun k => if k = 0 then some ⟨"", none⟩
      else if k = 1 then some ⟨"hi", some [⟨"hi", 1, 2, 1⟩]⟩ else none
    final := ⟨"", none⟩
    loadExn := none }

/-- A well-behaved `transcribe.py` environment with one proper result. -/
def goodPyEnv : Py.Env :=
  { audio_path := "audio.wav"
    model_path := some "model"
    pathExists := fun _ => true
    wav := ⟨1, 2, "NONE", 1, 5⟩
    engine := fun k => if k = 0 then some ⟨"hi", some [⟨"hi", 1, 2, 1⟩]⟩ else none
    final := ⟨"", none⟩
    loadExn := none }

/-- A well-behaved `transcribe_audio.py` environment with one mid-stream
result and an empty final flush. -/
def goodTaEnv : Ta.Env :=
  { audio_path := "audio.wav"
    model_path := "model"
    chunk_size := 5
    pathExists := fun _ => true
    wav := ⟨1, 2, "NONE", 1, 5⟩
    engine := fun k => if k = 0 then some ⟨"hey", none⟩ else none
    final := ⟨"", none⟩
    loadExn := none }

/-- A `transcribe_audio.py` environment whose model path does not exist. -/
def cxEnvC3 : Ta.Env :=
  { audio_path := "audio.wav"
    model_path := "missing-model"
    chunk_size := 4000
    pathExists := fun p => p != "missing-model"
    wav := ⟨1, 2, "NONE", 16000, 0⟩
    engine := fun _ => none
    final := ⟨"", none⟩
    loadExn := none }

/-! ### The claims -/

/-- Claim C9: the chunk-fetch operation returns a zero-length chunk at
end-of-stream and on every call thereafter (leaving the cursor in place);
both driver loops exit at the first zero-length chunk; and both loops
terminate: any fuel at least the number of remaining frames yields the
same result as fuel exactly the number of remaining frames, i.e. the
loops reach their exit condition within finitely many iterations. -/
theorem claim9_eof_idempotent_and_loop_terminates :
    (∀ c t p, t ≤ p → readframes c t p = (0, p)) ∧
    (∀ c t p, (readframes c t p).1 = 0 → readframes c t (readframes c t p).2 = (0, p)) ∧
    (∀ engine c t fuel (st : Py.LoopState), (readframes c t st.pos).1 = 0 →
      Py.loopF engine c t fuel st = st) ∧
    (∀ engine c t r fuel (st : Ta.LoopState), (readframes c t st.pos).1 = 0 →
      Ta.loopF engine c t r fuel st = st) ∧
    (∀ engine c t fuel (st : Py.LoopState), t - st.pos ≤ fuel →
      Py.loopF engine c t fuel st = Py.loopF engine c t (t - st.pos) st) ∧
    (∀ engine c t r fuel (st : Ta.LoopState), t - st.pos ≤ fuel →
      Ta.loopF engine c t r fuel st = Ta.loopF engine c t r (t - st.pos) st) := by
  refine ⟨?_, ?_, ?_, ?_, ?_, ?_⟩
  · intro c t p h
    have h1 : t - p = 0 := by omega
    simp [readframes, h1]
  · intro c t p h
    have h1 : min c (t - p) = 0 := h
    simp [readframes, h1]
  · exact fun engine c t fuel st h => Py.loopF_exit engine c t fuel st h
  · exact fun engine c t r fuel st h => Ta.ta_loopF_exit engine c t r fuel st h
  · exact fun engine c t fuel st h => Py.loopF_fuel_irrel engine c t fuel st h
  · exact fun engine c t r fuel st h => Ta.ta_loopF_fuel_irrel engine c t r fuel st h

/-- Witness for C9 at concrete inputs: reading past end-of-stream yields
a zero-length chunk with the cursor unchanged, and extra fuel does not
change a loop run. -/
theorem claim9_witness :
    readframes 5 10 10 = (0, 10) ∧
    readframes 5 10 (readframes 5 10 12).2 = (0, 12) ∧
    Py.loopF (fun _ => none) 5 10 12 Py.loopInit =
      Py.loopF (fun _ => none) 5 10 (10 - Py.loopInit.pos) Py.loopInit :=
  ⟨claim9_eof_idempotent_and_loop_terminates.1 5 10 10 (by decide),
   claim9_eof_idempotent_and_loop_terminates.2.1 5 10 12 (by decide),
   claim9_eof_idempotent_and_loop_terminates.2.2.2.2.1 (fun _ => none) 5 10 12 Py.loopInit
     (by decide)⟩

/-- Claim C10: `transcribe_audio` in `transcribe_audio.py` always returns
the four-key result dict (structurally: a total function into
`Ta.ResultDict`), with `success = True` exactly when `error is None`. -/
theorem claim10_success_iff_error_none (env : Ta.Env) :
    (Ta.transcribe_audio env).1.success = true ↔
      (Ta.transcribe_audio env).1.error = none := by
  rcases ta_cases env with ⟨hs, ⟨msg, he⟩, _, _⟩ | ⟨hs, he, _, _⟩
  · simp [hs, he]
  · simp [hs, he]

/-- Counterexample to claim C3: on a missing model, the flag-based entry
point reports the error only inside the JSON envelope and exits 0. -/
theorem claim3_counterexample :
    (Ta.main cxEnvC3).1.error = some "Model not found: missing-model" ∧
    (Ta.main cxEnvC3).1.success = false ∧
    (Ta.main cxEnvC3).2 = 0 := by decide

/-- Claim C3 (amended): `transcribe.py` exits 0 exactly when it emitted a
transcript and 1 on every error kind; `transcribe_audio.py`'s entry point
always exits 0, reporting failure only through the JSON
`success`/`error` fields. -/
theorem claim3_amended_exit_codes (p : Py.Env) (t : Ta.Env) :
    ((Py.transcribe_audio p).exitCode = 0 ↔
      ∃ segs ft, (Py.transcribe_audio p).out = Out.transcript segs ft) ∧
    (Ta.main t).2 = 0 := by
  constructor
  · rcases py_cases p with ⟨h0, hout⟩ | ⟨h1, hne⟩
    · exact ⟨fun _ => ⟨_, _, hout⟩, fun _ => h0⟩
    · constructor
      · intro h
        rw [h1] at h
        cases h
      · rintro ⟨segs, ft, hft⟩
        exact absurd hft (hne segs ft)
  · rfl

/-- A stereo (2-channel) WAV environment for `transcribe.py`. -/
def cxEnvC4p : Py.Env :=
  { audio_path := "stereo.wav"
    model_path := some "model"
    pathExists := fun _ => true
    wav := ⟨2, 2, "NONE", 16000, 16000⟩
    engine := fun _ => none
    final := ⟨"", none⟩
    loadExn := none }

/-- A stereo (2-channel) WAV environment for `transcribe_audio.py`. -/
def cxEnvC4t : Ta.Env :=
  { audio_path := "stereo.wav"
    model_path := "model"
    chunk_size := 4000
    pathExists := fun _ => true
    wav := ⟨2, 2, "NONE", 16000, 16000⟩
    engine := fun _ => none
    final := ⟨"", none⟩
    loadExn := none }

/-- Claim C4: a WAV input failing the mono/16-bit/uncompressed gate makes
both pipelines report the format error with no segments and exit the
recognition stage before any recognizer is created or fed (the effect
trace of the failing run contains neither a recognizer creation nor a
feed). -/
theorem claim4_format_gate (p : Py.Env) (t : Ta.Env)
    (hpa : p.pathExists p.audio_path = true)
    (hpm : p.pathExists (Py.resolve_model_path p.model_path) = true)
    (hpe : p.loadExn = none)
    (hpw : wavFormatBad p.wav = true)
    (hta : t.pathExists t.model_path = true)
    (htb : t.pathExists t.audio_path = true)
    (hte : t.loadExn = none)
    (htw : wavFormatBad t.wav = true) :
    (Py.transcribe_audio p).out =
      Out.errorOnly "Audio file must be mono WAV format at 16 bit PCM" ∧
    (Py.transcribe_audio p).exitCode = 1 ∧
    Effect.createRecognizer ∉ (Py.transcribe_audio p).effs ∧
    Effect.feedChunk ∉ (Py.transcribe_audio p).effs ∧
    (Ta.transcribe_audio t).1.error = some "Audio file must be WAV format mono PCM" ∧
    (Ta.transcribe_audio t).1.results = [] ∧
    (Ta.transcribe_audio t).1.success = false ∧
    Effect.createRecognizer ∉ (Ta.transcribe_audio t).2 ∧
    Effect.feedChunk ∉ (Ta.transcribe_audio t).2 := by
  have hp1 : ¬(p.pathExists p.audio_path = false) := by
    rw [hpa]
    exact fun h => by cases h
  have hp2 : ¬(p.pathExists (Py.resolve_model_path p.model_path) = false) := by
    rw [hpm]
    exact fun h => by cases h
  have ht1 : ¬(t.pathExists t.model_path = false) := by
    rw [hta]
    exact fun h => by cases h
  have ht2 : ¬(t.pathExists t.audio_path = false) := by
    rw [htb]
    exact fun h => by cases h
  unfold Py.transcribe_audio Ta.transcribe_audio
  rw [if_neg hp1, if_neg hp2, hpe, if_neg ht1, if_neg ht2, hte, if_pos hpw, if_pos htw]
  exact ⟨rfl, rfl, by decide, by decide, rfl, rfl, rfl, by decide, by decide⟩

/-- Witness for C4: a concrete stereo WAV is rejected by both entry
points before any recognition work. -/
theorem claim4_witness :
    (Py.transcribe_audio cxEnvC4p).out =
      Out.errorOnly "Audio file must be mono WAV format at 16 bit PCM" ∧
    (Ta.transcribe_audio cxEnvC4t).1.results = [] ∧
    Effect.createRecognizer ∉ (Py.transcribe_audio cxEnvC4p).effs ∧
    Effect.feedChunk ∉ (Ta.transcribe_audio cxEnvC4t).2 := by
  have h := claim4_format_gate cxEnvC4p cxEnvC4t (by decide) (by decide) (by decide)
    (by decide) (by decide) (by decide) (by decide) (by decide)
  exact ⟨h.1, h.2.2.2.2.2.1, h.2.2.1, h.2.2.2.2.2.2.2.2⟩

/-- A `transcribe.py` environment whose model path does not exist
(for claim C7). -/
def cxEnvC7p : Py.Env :=
  { audio_path := "audio.wav"
    model_path := some "no-model"
    pathExists := fun p => p != "no-model"
    wav := ⟨1, 2, "NONE", 16000, 0⟩
    engine := fun _ => none
    final := ⟨"", none⟩
    loadExn := none }

/-- A `transcribe_audio.py` environment whose model path does not exist
(for claim C7). -/
def cxEnvC7 : Ta.Env :=
  { audio_path := "audio.wav"
    model_path := "no-model"
    chunk_size := 4000
    pathExists := fun p => p != "no-model"
    wav := ⟨1, 2, "NONE", 16000, 0⟩
    engine := fun _ => none
    final := ⟨"", none⟩
    loadExn := none }

/-- Counterexample to claim C7: on a missing model the flag-based entry
point emits a result dict that has only the four keys `success`, `error`,
`results`, `full_text` (so no `instructions` field) and exits 0, while
the claim demands an `instructions` field and a non-zero exit status. -/
theorem claim7_counterexample :
    (Ta.main cxEnvC7).1 =
      { success := false, error := some "Model not found: no-model",
        results := [], full_text := "" } ∧
    (Ta.main cxEnvC7).2 = 0 := by decide

/-- Claim C7 (amended): on a missing model, `transcribe.py` emits a JSON
document with both an error and an instructions field and exits 1;
`transcribe_audio.py` sets only the `error` field of its four-key result
dict (it has no instructions field) and its entry point exits 0. -/
theorem claim7_amended_model_not_found (p : Py.Env) (t : Ta.Env)
    (hpa : p.pathExists p.audio_path = true)
    (hpm : p.pathExists (Py.resolve_model_path p.model_path) = false)
    (htm : t.pathExists t.model_path = false) :
    (Py.transcribe_audio p).out = Out.errorWithInstructions
      ("Model not found: " ++ Py.resolve_model_path p.model_path) Py.instructionsText ∧
    (Py.transcribe_audio p).exitCode = 1 ∧
    (Ta.main t).1.error = some ("Model not found: " ++ t.model_path) ∧
    (Ta.main t).1.success = false ∧
    (Ta.main t).2 = 0 := by
  unfold Ta.main Ta.transcribe_audio
  unfold Py.transcribe_audio
  rw [if_neg (by rw [hpa]; exact fun h => by cases h), if_pos hpm, if_pos htm]
  exact ⟨rfl, rfl, rfl, rfl, rfl⟩

/-- Witness for C7 (amended) at a concrete missing-model invocation. -/
theorem claim7_witness :
    (Py.transcribe_audio cxEnvC7p).out = Out.errorWithInstructions
      ("Model not found: " ++ Py.resolve_model_path cxEnvC7p.model_path) Py.instructionsText ∧
    (Ta.main cxEnvC7).2 = 0 :=
  ⟨(claim7_amended_model_not_found cxEnvC7p cxEnvC7 (by decide) (by decide) (by decide)).1,
   (claim7_amended_model_not_found cxEnvC7p cxEnvC7 (by decide) (by decide) (by decide)).2.2.2.2⟩

namespace Ta

open Transcribe

/-- The cursor position (frames consumed) after `m` reads of `chunkSize`
frames from a stream of `total` frames. -/
def framesAfter (chunkSize total m : Nat) : Nat :=
  min (m * chunkSize) total

theorem mem_driverResults_time (env : Env) :
    ∀ e ∈ driverResults env,
      (∃ k, env.engine k = some e.r ∧ e.time =
        some (((framesAfter env.chunk_size env.wav.nframes (k + 1) : Nat) : ℚ) /
          (env.wav.framerate : ℚ))) ∨
      (e.r = env.final ∧ e.time =
        some (((framesAfter env.chunk_size env.wav.nframes (runLoop env).k : Nat) : ℚ) /
          (env.wav.framerate : ℚ))) := by
  intro e he
  simp only [driverResults, afterFinal] at he
  split_ifs at he with hf
  · rcases mem_runLoop_results env e he with ⟨k', rr, hk, hs, he'⟩
    subst he'
    exact Or.inl ⟨k', hk, rfl⟩
  · rcases List.mem_append.mp he with h | h
    · rcases mem_runLoop_results env e h with ⟨k', rr, hk, hs, he'⟩
      subst he'
      exact Or.inl ⟨k', hk, rfl⟩
    · simp only [List.mem_singleton] at h
      subst h
      refine Or.inr ⟨rfl, ?_⟩
      show some (((runLoop env).pos : ℚ) / (env.wav.framerate : ℚ)) = _
      rw [runLoop_pos env]
      rfl

end Ta

/-- A `transcribe.py` environment with a proper mid-stream result and a
proper final result (for claim C8). -/
def cxEnvC8 : Py.Env :=
  { audio_path := "audio.wav"
    model_path := some "model"
    pathExists := fun _ => true
    wav := ⟨1, 2, "NONE", 1, 5⟩
    engine := fun k => if k = 0 then some ⟨"hi", some [⟨"hi", 1, 2, 1⟩]⟩ else none
    final := ⟨"ok", some [⟨"ok", 3, 4, 1⟩]⟩
    loadExn := none }

/-- Counterexample to claim C8: in `transcribe.py` every entry of the
driver's results list is appended without any chunk-end timestamp (the
parsed result dict has no time key), so no appended entry carries the
frames-consumed-over-rate value the claim demands. -/
theorem claim8_counterexample :
    (Py.driverResults cxEnvC8).map (fun e => e.time) = [none, none] := by decide

/-- Claim C8 (amended): `transcribe_audio.py` attaches to every appended
entry the chunk-end timestamp `wf.tell() / framerate` of its own append
event: a mid-stream entry, whose result was drained at feed index `k`
(`engine k = some e.r`), carries the cursor after the `k + 1` chunk
reads performed so far, `min((k+1) x chunkSize, totalFrames) /
sampleRate`; the final-flush entry carries the cursor after all of the
loop's reads.  `transcribe.py` attaches no timestamp to any appended
entry. -/
theorem claim8_amended_chunk_end_timestamps (p : Py.Env) (t : Ta.Env) :
    (∀ e ∈ Py.driverResults p, e.time = none) ∧
    (∀ e ∈ Ta.driverResults t,
      (∃ k, t.engine k = some e.r ∧ e.time =
        some (((Ta.framesAfter t.chunk_size t.wav.nframes (k + 1) : Nat) : ℚ) /
          (t.wav.framerate : ℚ))) ∨
      (e.r = t.final ∧ e.time =
        some (((Ta.framesAfter t.chunk_size t.wav.nframes (Ta.runLoop t).k : Nat) : ℚ) /
          (t.wav.framerate : ℚ)))) := by
  constructor
  · intro e he
    exact (Py.mem_driverResults p e he).1
  · exact Ta.mem_driverResults_time t

/-- Witness for C8 (amended): a concrete mid-stream entry of a
`transcribe_audio.py` run carries the cursor timestamp of the feed that
drained it, and a concrete `transcribe.py` entry carries none. -/
theorem claim8_witness :
    (⟨⟨"hi", some [⟨"hi", 1, 2, 1⟩]⟩, none⟩ : DriverEntry).time = none ∧
    ((∃ k, goodTaEnv.engine k =
        some (⟨⟨"hey", none⟩, some (((5 : Nat) : ℚ) / ((1 : Nat) : ℚ))⟩ : DriverEntry).r ∧
        (⟨⟨"hey", none⟩, some (((5 : Nat) : ℚ) / ((1 : Nat) : ℚ))⟩ : DriverEntry).time =
          some (((Ta.framesAfter goodTaEnv.chunk_size goodTaEnv.wav.nframes (k + 1) : Nat) : ℚ) /
            (goodTaEnv.wav.framerate : ℚ))) ∨
     ((⟨⟨"hey", none⟩, some (((5 : Nat) : ℚ) / ((1 : Nat) : ℚ))⟩ : DriverEntry).r =
        goodTaEnv.final ∧
      (⟨⟨"hey", none⟩, some (((5 : Nat) : ℚ) / ((1 : Nat) : ℚ))⟩ : DriverEntry).time =
        some (((Ta.framesAfter goodTaEnv.chunk_size goodTaEnv.wav.nframes
            (Ta.runLoop goodTaEnv).k : Nat) : ℚ) /
          (goodTaEnv.wav.framerate : ℚ)))) :=
  ⟨(claim8_amended_chunk_end_timestamps cxEnvC8 goodTaEnv).1
     ⟨⟨"hi", some [⟨"hi", 1, 2, 1⟩]⟩, none⟩ (by decide),
   (claim8_amended_chunk_end_timestamps cxEnvC8 goodTaEnv).2
     ⟨⟨"hey", none⟩, some (((5 : Nat) : ℚ) / ((1 : Nat) : ℚ))⟩ (List.Mem.head _)⟩

/-- Counterexample to claim C1: with a leading empty boundary result (an
utterance boundary over silence), `transcribe.py` still appends the empty
result to its `results` list, and the later segment inherits the
enumeration index 1, so the success-path transcript's first segment has
`id = 1`, not 0: the ids do not increase by 1 starting at 0. -/
theorem claim1_counterexample :
    (Py.assemble (Py.driverResults cxEnvC1)).1.map (fun s => s.id) = [1] ∧
    (Py.transcribe_audio cxEnvC1).exitCode = 0 := by decide

/-- Claim C1 (amended): on the success path of `transcribe.py` the
segment ids are strictly increasing (they are the indices of the
originating entries in the `results` list, which may skip indices of
entries without a word list), and, when every engine word list is
time-ordered and non-overlapping, every segment satisfies
`startTime ≤ endTime`. -/
theorem claim1_amended_ids_increasing (env : Py.Env)
    (heng : ∀ k r ws, env.engine k = some r → r.result = some ws → wordsOrdered ws)
    (hfin : ∀ ws, env.final.result = some ws → wordsOrdered ws) :
    List.Pairwise (fun a b => a.id < b.id) (Py.assemble (Py.driverResults env)).1 ∧
    ∀ seg ∈ (Py.assemble (Py.driverResults env)).1, seg.start ≤ seg.endT := by
  constructor
  · rw [Py.assemble_fst]
    exact Py.segsOf_pairwise_id _ 0
  · intro seg hseg
    rw [Py.assemble_fst] at hseg
    rcases Py.mem_segsOf _ 0 seg hseg with ⟨m, e, ws, hmem, hr, hrfl, _⟩
    subst hrfl
    apply Py.mkSegment_start_le_endT
    rcases (Py.mem_driverResults env e hmem).2 with ⟨k, hk⟩ | hfe
    · exact heng k e.r ws hk hr
    · exact hfin ws (hfe ▸ hr)

/-- Witness for C1 (amended) on a run with one proper one-word result. -/
theorem claim1_witness :
    List.Pairwise (fun a b => a.id < b.id) (Py.assemble (Py.driverResults goodPyEnv)).1 :=
  (claim1_amended_ids_increasing goodPyEnv
    (by
      intro k r ws hk hr
      by_cases h0 : k = 0
      · subst h0
        simp [goodPyEnv] at hk
        subst hk
        simp only [Option.some.injEq] at hr
        subst hr
        refine ⟨?_, ?_⟩
        · intro w' hw'
          simp only [List.mem_singleton] at hw'
          subst hw'
          show (1 : ℚ) ≤ 2
          norm_num
        · simp
      · simp only [goodPyEnv, if_neg h0] at hk
        cases hk)
    (by
      intro ws h
      simp only [goodPyEnv] at h
      cases h)).1

/-- A `transcribe.py` environment where a boundary result carries an
empty word list while a preceding empty result burns an index (for
claim C6). -/
def cxEnvC6 : Py.Env :=
  { audio_path := "audio.wav"
    model_path := some "model"
    pathExists := fun _ => true
    wav := ⟨1, 2, "NONE", 1, 10⟩
    engine := fun k => if k = 0 then some ⟨"", none⟩
      else if k = 1 then some ⟨"x", some []⟩ else none
    final := ⟨"", none⟩
    loadExn := none }

/-- Counterexample to claim C6: the fallback times use the index of the
originating entry in the `results` list, not the segment's 0-based
position among the segments.  Here the only segment (position 0) has
`start = 1 × 5`, while the claim demands `0 × 5`. -/
theorem claim6_counterexample :
    (Py.assemble (Py.driverResults cxEnvC6)).1.map (fun s => (s.id, s.start, s.words)) =
      [(1, ((1 : Nat) : ℚ) * 5, ([] : List WordEntry))] ∧
    ((1 : Nat) : ℚ) * 5 ≠ ((0 : Nat) : ℚ) * 5 :=
  ⟨rfl, by norm_num⟩

/-- Claim C6 (amended): a `transcribe.py` segment built from a result
with an empty word list gets `start = id × 5` and `end = (id + 1) × 5`
where `id` is the index of its originating entry in the `results` list
(equal to the segment's position only when no entry was skipped), and the
nominal window of 5 seconds equals the driver's chunk size in frames
divided by the sample rate. -/
theorem claim6_amended_fallback_times (env : Py.Env) :
    (0 < env.wav.framerate →
      ((Py.chunk_size env.wav : Nat) : ℚ) / (env.wav.framerate : ℚ) = 5) ∧
    ∀ seg ∈ (Py.assemble (Py.driverResults env)).1, seg.words = [] →
      seg.start = (seg.id : ℚ) * 5 ∧ seg.endT = ((seg.id : ℚ) + 1) * 5 := by
  constructor
  · intro h
    have hr : ((env.wav.framerate : ℚ)) ≠ 0 := Nat.cast_ne_zero.mpr (by omega)
    simp only [Py.chunk_size]
    push_cast
    rw [mul_comm, mul_div_assoc, div_self hr, mul_one]
  · intro seg hseg hw
    rw [Py.assemble_fst] at hseg
    rcases Py.mem_segsOf _ 0 seg hseg with ⟨m, e, ws, hmem, hr, hrfl, _⟩
    subst hrfl
    have hws : ws = [] := hw
    subst hws
    exact ⟨rfl, rfl⟩

/-- Witness for C6 (amended): the empty-word-list segment of a concrete
run has the fallback times, and the 5-second window matches the driver's
chunk size over the sample rate. -/
theorem claim6_witness :
    ((Py.chunk_size cxEnvC6.wav : Nat) : ℚ) / (cxEnvC6.wav.framerate : ℚ) = 5 ∧
    (⟨1, ((1 : Nat) : ℚ) * 5, (((1 : Nat) : ℚ) + 1) * 5, "x", []⟩ : Segment).start =
      ((⟨1, ((1 : Nat) : ℚ) * 5, (((1 : Nat) : ℚ) + 1) * 5, "x", []⟩ : Segment).id : ℚ) * 5 :=
  ⟨(claim6_amended_fallback_times cxEnvC6).1 (by decide),
   ((claim6_amended_fallback_times cxEnvC6).2
     ⟨1, ((1 : Nat) : ℚ) * 5, (((1 : Nat) : ℚ) + 1) * 5, "x", []⟩
     (List.Mem.head _) rfl).1⟩

/-- Claim C2: an empty-trimmed-text recognition result never produces a
segment, so no segment text is empty after trimming.  In
`transcribe_audio.py` the non-empty-after-strip filter is explicit and
unconditional.  In `transcribe.py` a result produces a segment exactly
when it carries a word list, so the property holds under the Vosk output
convention (assumed here as a hypothesis on the engine) that a result
carrying a word list has non-empty trimmed text. -/
theorem claim2_no_empty_segments (p : Py.Env) (t : Ta.Env)
    (heng : ∀ k r, p.engine k = some r → r.result.isSome = true → pyStrip r.text ≠ "")
    (hfin : p.final.result.isSome = true → pyStrip p.final.text ≠ "") :
    (∀ seg ∈ (Py.assemble (Py.driverResults p)).1, pyStrip seg.text ≠ "") ∧
    (∀ e ∈ (Ta.transcribe_audio t).1.results, pyStrip e.r.text ≠ "") := by
  constructor
  · intro seg hseg
    rw [Py.assemble_fst] at hseg
    rcases Py.mem_segsOf _ 0 seg hseg with ⟨m, e, ws, hmem, hr, hrfl, _⟩
    subst hrfl
    show pyStrip e.r.text ≠ ""
    rcases (Py.mem_driverResults p e hmem).2 with ⟨k, hk⟩ | hfe
    · exact heng k e.r hk (by rw [hr]; rfl)
    · rw [hfe]
      exact hfin (by rw [← hfe, hr]; rfl)
  · intro e he
    rcases ta_cases t with ⟨_, _, hres, _⟩ | ⟨_, _, hres, _⟩
    · rw [hres] at he
      cases he
    · rw [hres] at he
      exact (Ta.ta_mem_driverResults t e he).1

/-- Witness for C2 at a concrete run: the produced segment has non-empty
trimmed text. -/
theorem claim2_witness :
    pyStrip (⟨0, 1, 2, "hi", [⟨"hi", 1, 2, 1⟩]⟩ : Segment).text ≠ "" :=
  (claim2_no_empty_segments goodPyEnv goodTaEnv
    (by
      intro k r hk hs
      by_cases h0 : k = 0
      · subst h0
        simp [goodPyEnv] at hk
        subst hk
        decide
      · simp only [goodPyEnv, if_neg h0] at hk
        cases hk)
    (by
      intro h
      simp [goodPyEnv] at h)).1
    ⟨0, 1, 2, "hi", [⟨"hi", 1, 2, 1⟩]⟩ (by decide)

/-- Claim C5: the emitted full text is re-derivable from the emitted
segments: on every `transcribe.py` success output it equals the trimmed
space-join of the segment texts in id order (unconditionally); for
`transcribe_audio.py`, whose code joins without a final strip, the
emitted `full_text` equals the trimmed space-join of the emitted result
texts under the Vosk output convention (assumed as a hypothesis) that
engine texts carry no leading or trailing whitespace. -/
theorem claim5_full_text_rederivable (p : Py.Env) (t : Ta.Env)
    (heng : ∀ k r, t.engine k = some r → pyStrip r.text = r.text)
    (hfin : pyStrip t.final.text = t.final.text) :
    (∀ segs ft, (Py.transcribe_audio p).out = Out.transcript segs ft →
      ft = pyStrip (pyJoin " " (segs.map (fun s => s.text)))) ∧
    (Ta.transcribe_audio t).1.full_text =
      pyStrip (pyJoin " " ((Ta.transcribe_audio t).1.results.map (fun e => e.r.text))) := by
  constructor
  · intro segs ft hout
    rcases py_cases p with ⟨h0, hout'⟩ | ⟨h1, hne⟩
    · rw [hout'] at hout
      simp only [Out.transcript.injEq] at hout
      rcases hout with ⟨hsegs, hft⟩
      subst hsegs
      subst hft
      rw [Py.assemble_snd, Py.assemble_fst, ← Py.textsOf_eq_map]
    · exact absurd hout (hne segs ft)
  · rcases ta_cases t with ⟨_, _, hres, hft⟩ | ⟨_, _, hres, hft⟩
    · rw [hres, hft]
      rfl
    · rw [hres, hft, Ta.driverTexts_eq_map]
      refine (pyStrip_pyJoin_of_stripped _ ?_).symm
      intro s hs
      rcases List.mem_map.mp hs with ⟨e, he, hrfl⟩
      subst hrfl
      have h1 := (Ta.ta_mem_driverResults t e he).1
      have h2 : pyStrip e.r.text = e.r.text := by
        rcases (Ta.ta_mem_driverResults t e he).2 with ⟨k, hk⟩ | hfe
        · exact heng k e.r hk
        · rw [hfe]
          exact hfin
      refine ⟨h2, ?_⟩
      rw [← h2]
      exact h1

/-- Witness for C5 at a concrete `transcribe_audio.py` run. -/
theorem claim5_witness :
    (Ta.transcribe_audio goodTaEnv).1.full_text =
      pyStrip (pyJoin " " ((Ta.transcribe_audio goodTaEnv).1.results.map
        (fun e => e.r.text))) :=
  (claim5_full_text_rederivable goodPyEnv goodTaEnv
    (by
      intro k r hk
      by_cases h0 : k = 0
      · subst h0
        simp [goodTaEnv] at hk
        subst hk
        decide
      · simp only [goodTaEnv, if_neg h0] at hk
        cases hk)
    (by decide)).2
